import Mathlib

/-!
Verification development for the build-ffmpeg download-and-build script
(`scripts/build-ffmpeg.py`).

The script is shallowly embedded: file contents are lists of byte values
(`List Nat`), filesystem state is an explicit association of paths to
contents plus a set of directories, and every external effect of the
script (fetching a tarball, invoking the external builder, running a
subprocess, moving or copying a file, creating the tar archive) is
recorded as an explicit event in a trace.  External helpers from
`cibuildpkg` (`fetch`, `Builder.build`, `Builder.create_directories`)
are not part of the repository; their behaviour is a parameter of the
model (`Cfg`), and their invocations appear as trace events.

Machine integers do not occur in the script itself; the SHA-256
implementation below models CPython `hashlib` arithmetic with `Nat`
and explicit `% 2 ^ 32` reductions.
-/

set_option maxRecDepth 40000

/-! ## Byte-stream chunking

`readChunks k fuel l` models the read loop
`for byte_block in iter(lambda: f.read(4096), b"")`: repeatedly take the
next `k` bytes of the remaining stream until an empty read.  The loop is
driven by a fuel argument so that it is structurally recursive; `chunksOf`
instantiates the fuel with the stream length, which is always sufficient
when `k` is positive. -/

def readChunks (k : Nat) : Nat → List Nat → List (List Nat)
  | _, [] => []
  | 0, _ :: _ => []
  | fuel + 1, x :: xs => ((x :: xs).take k) :: readChunks k fuel ((x :: xs).drop k)

def chunksOf (k : Nat) (l : List Nat) : List (List Nat) := readChunks k l.length l

/-! ## SHA-256 (FIPS 180-4), on `Nat` with explicit 32-bit reductions -/

def rotr32 (x n : Nat) : Nat := ((x >>> n) ||| (x <<< (32 - n))) % 2 ^ 32

def sumA32 (x : Nat) : Nat := rotr32 x 2 ^^^ rotr32 x 13 ^^^ rotr32 x 22

def sumE32 (x : Nat) : Nat := rotr32 x 6 ^^^ rotr32 x 11 ^^^ rotr32 x 25

def sigLo32 (x : Nat) : Nat := rotr32 x 7 ^^^ rotr32 x 18 ^^^ (x >>> 3)

def sigHi32 (x : Nat) : Nat := rotr32 x 17 ^^^ rotr32 x 19 ^^^ (x >>> 10)

def choose32 (x y z : Nat) : Nat := (x &&& y) ^^^ ((x ^^^ (2 ^ 32 - 1)) &&& z)

def majority32 (x y z : Nat) : Nat := (x &&& y) ^^^ (x &&& z) ^^^ (y &&& z)

/-- The 64 round constants of FIPS 180-4 (the first 32 bits of the
fractional parts of the cube roots of the first 64 primes), written in
decimal. -/
def sha256K : List Nat :=
  [1116352408, 1899447441, 3049323471, 3921009573, 961987163, 1508970993,
   2453635748, 2870763221, 3624381080, 310598401, 607225278, 1426881987,
   1925078388, 2162078206, 2614888103, 3248222580, 3835390401, 4022224774,
   264347078, 604807628, 770255983, 1249150122, 1555081692, 1996064986,
   2554220882, 2821834349, 2952996808, 3210313671, 3336571891, 3584528711,
   113926993, 338241895, 666307205, 773529912, 1294757372, 1396182291,
   1695183700, 1986661051, 2177026350, 2456956037, 2730485921, 2820302411,
   3259730800, 3345764771, 3516065817, 3600352804, 4094571909, 275423344,
   430227734, 506948616, 659060556, 883997877, 958139571, 1322822218,
   1537002063, 1747873779, 1955562222, 2024104815, 2227730452, 2361852424,
   2428436474, 2756734187, 3204031479, 3329325298]

/-- The initial hash value of FIPS 180-4 (the first 32 bits of the
fractional parts of the square roots of the first 8 primes), written in
decimal. -/
def sha256H0 : List Nat :=
  [1779033703, 3144134277, 1013904242, 2773480762, 1359893119, 2600822924,
   528734635, 1541459225]

/-- Extend the 16 block words to the 64-entry message schedule. -/
def extendSchedule (w : List Nat) : Nat → List Nat
  | 0 => w
  | n + 1 =>
    let i := w.length
    let next := (sigHi32 (w.getD (i - 2) 0) + w.getD (i - 7) 0 +
                 sigLo32 (w.getD (i - 15) 0) + w.getD (i - 16) 0) % 2 ^ 32
    extendSchedule (w ++ [next]) n

def bytesToWord (bs : List Nat) : Nat := bs.foldl (fun acc b => acc * 256 + b) 0

def sha256Round (st : Nat × Nat × Nat × Nat × Nat × Nat × Nat × Nat) (kw : Nat × Nat) :
    Nat × Nat × Nat × Nat × Nat × Nat × Nat × Nat :=
  let (a, b, c, d, e, f, g, h) := st
  let (k, w) := kw
  let t1 := (h + sumE32 e + choose32 e f g + k + w) % 2 ^ 32
  let t2 := (sumA32 a + majority32 a b c) % 2 ^ 32
  ((t1 + t2) % 2 ^ 32, a, b, c, (d + t1) % 2 ^ 32, e, f, g)

def sha256Block (hs : List Nat) (block : List Nat) : List Nat :=
  let w16 := (chunksOf 4 block).map bytesToWord
  let w := extendSchedule w16 48
  let h0 := hs.getD 0 0
  let h1 := hs.getD 1 0
  let h2 := hs.getD 2 0
  let h3 := hs.getD 3 0
  let h4 := hs.getD 4 0
  let h5 := hs.getD 5 0
  let h6 := hs.getD 6 0
  let h7 := hs.getD 7 0
  let (a, b, c, d, e, f, g, h) :=
    (sha256K.zip w).foldl sha256Round (h0, h1, h2, h3, h4, h5, h6, h7)
  [(h0 + a) % 2 ^ 32, (h1 + b) % 2 ^ 32, (h2 + c) % 2 ^ 32, (h3 + d) % 2 ^ 32,
   (h4 + e) % 2 ^ 32, (h5 + f) % 2 ^ 32, (h6 + g) % 2 ^ 32, (h7 + h) % 2 ^ 32]

/-- Append the 0x80 byte, the zero padding and the 64-bit big-endian bit length. -/
def sha256Pad (msg : List Nat) : List Nat :=
  let padZeros := (119 - (msg.length + 1) % 64) % 64
  msg ++ [0x80] ++ List.replicate padZeros 0 ++
    ((List.range 8).map fun i => ((msg.length * 8) >>> (8 * (7 - i))) % 256)

def sha256Words (msg : List Nat) : List Nat :=
  (chunksOf 64 (sha256Pad msg)).foldl sha256Block sha256H0

def toHex8 (w : Nat) : String :=
  String.mk ((List.range 8).map fun i => Nat.digitChar (w / 16 ^ (7 - i) % 16))

/-- SHA-256 hex digest of a byte sequence. -/
def sha256hex (msg : List Nat) : String :=
  String.join ((sha256Words msg).map toHex8)

/-! ## The incremental hash object of `hashlib`

A `hashlib.sha256()` object absorbs bytes through `update`; by the
documented `hashlib` contract, `m.update(a); m.update(b)` is equivalent
to `m.update(a + b)`, and `hexdigest` returns the SHA-256 digest of the
concatenation of everything absorbed so far.  The object is therefore
modelled by the byte sequence it has absorbed. -/

structure Sha256Hash where
  fed : List Nat
  deriving DecidableEq, Repr

def Sha256Hash.init : Sha256Hash := ⟨[]⟩

def Sha256Hash.updateWith (h : Sha256Hash) (block : List Nat) : Sha256Hash := ⟨h.fed ++ block⟩

def Sha256Hash.hexdigest (h : Sha256Hash) : String := sha256hex h.fed

/-- Model of `calculate_sha256`: feed the file contents to a fresh
`hashlib.sha256()` object in successive 4096-byte blocks until an empty
read, then return the hex digest. -/
def calculate_sha256 (contents : List Nat) : String :=
  ((chunksOf 4096 contents).foldl Sha256Hash.updateWith Sha256Hash.init).hexdigest

/-- Stated from the specification words for the refinement claim about
`calculate_sha256`: the SHA-256 hex digest computed over the entire file
contents in one pass. -/
def sha256_onepass (contents : List Nat) : String := sha256hex contents

/-! ## Package metadata

`Package` is the `cibuildpkg` dataclass as used by the script: a name, a
source URL, an expected SHA-256 hex digest, configure arguments, a
parallel-build flag, a dependency list and an optional override for the
tarball file name. -/

structure Package where
  name : String
  source_url : String
  sha256 : String
  build_arguments : List String := []
  build_parallel : Bool := true
  requires : List String := []
  source_filename : Option String := none
  deriving DecidableEq, Repr

/-- The lame entry of the audio group. -/
def lame_package : Package :=
  { name := "lame",
    source_url := "http://deb.debian.org/debian/pool/main/l/lame/lame_3.100.orig.tar.gz",
    sha256 := "ddfe36cab873794038ae2c1210557ad34857a4b6bdc515785d1da9e175b1da1e" }

/-- The ogg entry of the audio group. -/
def ogg_package : Package :=
  { name := "ogg",
    source_url := "http://downloads.xiph.org/releases/ogg/libogg-1.3.5.tar.gz",
    sha256 := "0eb4b4b9420a0f51db142ba3f9c64b333f826532dc0f48c6410ae51f4799b664" }

/-- The opus entry of the audio group. -/
def opus_package : Package :=
  { name := "opus",
    source_url := "https://ftp.osuosl.org/pub/xiph/releases/opus/opus-1.6.tar.gz",
    sha256 := "b7637334527201fdfd6dd6a02e67aceffb0e5e60155bbd89175647a80301c92c",
    build_arguments := ["--disable-doc", "--disable-extra-programs"] }

/-- The speex entry of the audio group. -/
def speex_package : Package :=
  { name := "speex",
    source_url := "http://downloads.xiph.org/releases/speex/speex-1.2.1.tar.gz",
    sha256 := "4b44d4f2b38a370a2d98a78329fefc56a0cf93d1c1be70029217baae6628feea",
    build_arguments := ["--disable-binaries"] }

/-- The vorbis entry of the audio group. -/
def vorbis_package : Package :=
  { name := "vorbis",
    source_url := "https://ftp.osuosl.org/pub/xiph/releases/vorbis/libvorbis-1.3.7.tar.xz",
    sha256 := "b33cc4934322bcbf6efcbacf49e3ca01aadbea4114ec9589d1b1e9d20f72954b",
    requires := ["ogg"] }

/-- The audio codec package group defined at the top of the script, in
source order. -/
def audio_group : List Package :=
  [lame_package, ogg_package, opus_package, speex_package, vorbis_package]

/-- The ffmpeg package as defined at module level: empty configure
arguments (they are assigned inside `main`), parallel build except on
Windows. -/
def ffmpeg_package (plat : String) : Package :=
  { name := "ffmpeg",
    source_url := "https://ffmpeg.org/releases/ffmpeg-8.0.tar.xz",
    sha256 := "b2751fccb6cc4c77708113cd78b561059b6fa904b24162fa0be2d60273d27b8e",
    build_arguments := [],
    build_parallel := plat != "Windows" }

def gperf_package : Package :=
  { name := "gperf",
    source_url := "http://ftp.gnu.org/pub/gnu/gperf/gperf-3.1.tar.gz",
    sha256 := "588546b945bba4b70b6a3a616e80b4ab466e3f33024a352fc2198112cdbb3ae2" }

/-- On Windows the script records gperf as already available; elsewhere
the set starts empty. -/
def available_tools (plat : String) : List String :=
  if plat = "Windows" then ["gperf"] else []

/-- Build-time tools compiled with `for_builder=True`: gperf, unless it
is already available. -/
def build_tools (plat : String) : List Package :=
  if (available_tools plat).contains "gperf" then [] else [gperf_package]

def ffmpegArgs : List String :=
  ["--disable-ffmpeg", "--disable-ffplay", "--disable-ffprobe", "--disable-doc", 
   "--disable-htmlpages", "--disable-manpages", "--disable-podpages", "--disable-txtpages", 
   "--disable-network", "--disable-hwaccels", "--disable-cuda", "--disable-cuda-llvm", 
   "--disable-cuvid", "--disable-nvenc", "--disable-nvdec", "--disable-amf", 
   "--disable-audiotoolbox", "--disable-videotoolbox", "--disable-v4l2-m2m", "--disable-vaapi", 
   "--disable-vdpau", "--disable-d3d11va", "--disable-dxva2", "--disable-mediacodec", 
   "--disable-mmal", "--disable-omx", "--disable-rkmpp", "--disable-decoder=h264", 
   "--disable-decoder=hevc", "--disable-decoder=vp8", "--disable-decoder=vp9", 
   "--disable-decoder=av1", "--disable-decoder=mpeg2video", "--disable-decoder=mpeg4", 
   "--disable-decoder=msmpeg4v2", "--disable-decoder=msmpeg4v3", "--disable-encoder=h264", 
   "--disable-encoder=hevc", "--disable-encoder=vp8", "--disable-encoder=vp9", 
   "--disable-encoder=av1", "--disable-encoder=mpeg2video", "--disable-encoder=mpeg4", 
   "--disable-decoder=bmp", "--disable-decoder=png", "--disable-decoder=jpeg2000", 
   "--disable-decoder=mjpeg", "--disable-decoder=mjpegb", "--disable-decoder=gif", 
   "--disable-decoder=tiff", "--disable-decoder=webp", "--disable-encoder=bmp", 
   "--disable-encoder=png", "--disable-encoder=mjpeg", "--disable-encoder=gif", 
   "--disable-encoder=tiff", "--disable-encoder=webp", "--disable-encoders", 
   "--disable-decoders", "--enable-decoder=mp3*", "--enable-decoder=aac*", 
   "--enable-decoder=opus", "--enable-decoder=vorbis", "--enable-decoder=flac", 
   "--enable-decoder=alac", "--enable-decoder=pcm*", "--enable-decoder=adpcm*", 
   "--enable-decoder=wavpack", "--enable-encoder=aac", "--enable-encoder=libmp3lame", 
   "--enable-encoder=libopus", "--enable-encoder=libvorbis", "--enable-encoder=flac", 
   "--enable-encoder=alac", "--enable-encoder=pcm*", "--enable-encoder=wavpack", 
   "--disable-indevs", "--disable-outdevs", "--disable-filters", "--enable-filter=aresample", 
   "--enable-filter=aformat", "--enable-filter=anull", "--enable-filter=atrim", 
   "--enable-filter=volume", "--enable-filter=pan", "--enable-filter=amerge", 
   "--enable-filter=aconvert", "--enable-filter=asplit", "--enable-filter=channelmap", 
   "--enable-filter=channelsplit", "--disable-libaom", "--disable-libdav1d", 
   "--disable-libsvtav1", "--disable-libvpx", "--disable-libwebp", "--disable-libopenh264", 
   "--disable-libx264", "--disable-libx265", "--disable-libxvid", "--disable-libtheora", 
   "--disable-libopenjpeg", "--disable-libxml2", "--disable-lzma", "--disable-bzlib", 
   "--disable-iconv", "--disable-libfreetype", "--disable-libfontconfig", "--disable-libbluray", 
   "--disable-sdl2", "--disable-libxcb", "--disable-vulkan", "--disable-opengl", 
   "--disable-opencl", "--disable-mediafoundation", "--disable-protocols", 
   "--enable-protocol=file", "--enable-protocol=pipe", "--disable-x86asm", 
   "--disable-inline-asm", "--disable-asm", "--enable-gpl", "--enable-version3", "--enable-zlib", 
   "--enable-libmp3lame", "--enable-libopus", "--enable-libvorbis", "--enable-libspeex", 
   "--enable-demuxer=mp3", "--enable-demuxer=ogg", "--enable-demuxer=flac", 
   "--enable-demuxer=wav", "--enable-demuxer=aac", "--enable-demuxer=m4a", 
   "--enable-demuxer=mov", "--enable-muxer=mp3", "--enable-muxer=ogg", "--enable-muxer=flac", 
   "--enable-muxer=wav", "--enable-muxer=adts", "--enable-muxer=mp4", "--enable-parser=aac*", 
   "--enable-parser=mpegaudio", "--enable-parser=opus", "--enable-parser=vorbis", 
   "--enable-parser=flac"]

/-! ## Filesystem and effect model

Paths are lists of components (`os.path.join a b` is `a ++ [b]`).  The
filesystem carries file contents and a set of existing directories.
External effects are recorded as trace events. -/

/-- Association-list search for a file entry. -/
def findFile : List (List String × List Nat) → List String → Option (List Nat)
  | [], _ => none
  | e :: es, p => if e.1 = p then some e.2 else findFile es p

/-- Remove every entry for a path. -/
def removeEntry : List (List String × List Nat) → List String → List (List String × List Nat)
  | [], _ => []
  | e :: es, p => if e.1 = p then removeEntry es p else e :: removeEntry es p

structure FS where
  files : List (List String × List Nat)
  dirs : List (List String)
  deriving DecidableEq, Repr

def FS.read (fs : FS) (p : List String) : Option (List Nat) := findFile fs.files p

def FS.readD (fs : FS) (p : List String) : List Nat := (fs.read p).getD []

/-- Model of `os.path.exists`: true for files and for directories. -/
def FS.pathExists (fs : FS) (p : List String) : Bool :=
  (fs.read p).isSome || fs.dirs.contains p

def FS.write (fs : FS) (p : List String) (c : List Nat) : FS :=
  ⟨(p, c) :: removeEntry fs.files p, fs.dirs⟩

def FS.removeFile (fs : FS) (p : List String) : FS :=
  ⟨removeEntry fs.files p, fs.dirs⟩

/-- Model of `shutil.move(src, dstDir)` for a file moved into a
directory: the file reappears under its base name inside `dstDir`. -/
def FS.moveInto (fs : FS) (src dstDir : List String) : FS :=
  match fs.read src with
  | some c => (fs.removeFile src).write (dstDir ++ [src.getLastD ""]) c
  | none => fs

/-- Model of `shutil.copy(src, dstDir)` for a file copied into a
directory. -/
def FS.copyInto (fs : FS) (src dstDir : List String) : FS :=
  match fs.read src with
  | some c => fs.write (dstDir ++ [src.getLastD ""]) c
  | none => fs

/-- Model of `os.makedirs(d, exist_ok=True)`. -/
def FS.mkdir (fs : FS) (d : List String) : FS :=
  ⟨fs.files, if fs.dirs.contains d then fs.dirs else d :: fs.dirs⟩

/-- Trace events: each constructor records one external effect of the
script, with the arguments the script passes. -/
inductive Ev
  | fetch (url : String) (dest : List String)
  | printHashesMatch (pkgName : String)
  | printException (pkgName : String)
  | createDirs
  | whereTool (tool : String)
  | pipInstall (args : List String)
  | build (pkg : Package) (forBuilder : Bool)
  | moveFile (src : List String) (dstDir : List String)
  | copyFile (src : List String) (dstDir : List String)
  | stripLibs (flag : String) (libs : List (List String))
  | otoolList (libs : List (List String))
  | makedirs (d : List String)
  | tarArchive (out : List String) (chdir : List String) (dirs : List String)
  deriving DecidableEq, Repr

/-- Python exceptions that the modelled code can raise. -/
inductive PyErr
  | valueErrorTarballMissing (tb : List String)
  | valueErrorShaMismatch (pkgName : String)
  | calledProcessError
  deriving DecidableEq, Repr

/-- Environment of one run: the platform, the CIBUILDWHEEL environment
flag, the value of `get_platform()`, the absolute destination, output
and source directories, and the behaviour of the external helpers.
`fetchResult url dest fs` returns the filesystem after `fetch` together
with `true` when `fetch` raised `CalledProcessError`.  `buildResult` and
`createDirsResult` give the filesystem effect of the external builder. -/
structure Cfg where
  plat : String
  cibuildwheelEnv : Bool
  platformTag : String
  destDir : List String
  cwdOutputDir : List String
  sourceDir : List String
  fetchResult : String → List String → FS → FS × Bool
  buildResult : Package → Bool → FS → FS
  createDirsResult : FS → FS
  whereGcc : Option (List String)

/-- Structural model of `str.split(c)`: split a character list at every
occurrence of `c`, keeping empty pieces, as Python `split` does with an
explicit separator. -/
def splitOnChar (c : Char) : List Char → List (List Char)
  | [] => [[]]
  | x :: xs =>
    let r := splitOnChar c xs
    if x = c then [] :: r
    else
      match r with
      | [] => [[x]]
      | y :: ys => (x :: y) :: ys

/-- The last component of `url.split("/")`. -/
def lastUrlComponent (url : String) : String :=
  ⟨(splitOnChar (Char.ofNat 47) url.data).getLastD []⟩

/-- Tarball file name: `package.source_filename or package.source_url.split("/")[-1]`
(Python `or` falls through on an empty string as well as on `None`). -/
def tarballName (pkg : Package) : String :=
  match pkg.source_filename with
  | some s => if s = "" then lastUrlComponent pkg.source_url else s
  | none => lastUrlComponent pkg.source_url

def tarballPath (cfg : Cfg) (pkg : Package) : List String :=
  cfg.sourceDir ++ [tarballName pkg]

/-- Model of `download_and_verify_package`: if the tarball is absent,
call `fetch`, swallowing a `CalledProcessError`; if it is still absent,
raise `ValueError`; otherwise hash the tarball and raise `ValueError`
unless the digest equals the declared `sha256`.  Returns the trace, the
resulting filesystem and the raised exception, if any. -/
def download_and_verify_package (cfg : Cfg) (fs : FS) (pkg : Package) :
    List Ev × FS × Option PyErr :=
  let tb := tarballPath cfg pkg
  let step1 : List Ev × FS :=
    if fs.pathExists tb then ([], fs)
    else ([Ev.fetch pkg.source_url tb], (cfg.fetchResult pkg.source_url tb fs).1)
  if step1.2.pathExists tb = false then
    (step1.1, step1.2, some (PyErr.valueErrorTarballMissing tb))
  else
    if pkg.sha256 = calculate_sha256 (step1.2.readD tb) then
      (step1.1 ++ [Ev.printHashesMatch pkg.name], step1.2, none)
    else
      (step1.1, step1.2, some (PyErr.valueErrorShaMismatch pkg.name))

/-- Run `download_and_verify_package` over a package list, collecting
the trace, the final filesystem and the failures in list order.  This
determinizes the thread pool of `download_tars`: each package touches
only its own tarball path, and the context manager waits for every
future, so the submitted downloads are modelled in submission order. -/
def runAllDownloads (cfg : Cfg) : FS → List Package → List Ev × FS × List (String × PyErr)
  | fs, [] => ([], fs, [])
  | fs, p :: ps =>
    let r := download_and_verify_package cfg fs p
    let rest := runAllDownloads cfg r.2.1 ps
    (r.1 ++ rest.1, rest.2.1,
      (match r.2.2 with
       | some e => [(p.name, e)]
       | none => []) ++ rest.2.2)

/-- Model of `download_tars`: run all downloads; if any failed, print
the exception of the first failure and re-raise it to the caller. -/
def download_tars (cfg : Cfg) (fs : FS) (pkgs : List Package) :
    List Ev × FS × Option PyErr :=
  let r := runAllDownloads cfg fs pkgs
  match r.2.2 with
  | [] => (r.1, r.2.1, none)
  | (n, e) :: _ => (r.1 ++ [Ev.printException n], r.2.1, some e)

/-- The ffmpeg package after `main` assigns the configure arguments. -/
def ffmpegFinal (plat : String) : Package :=
  { ffmpeg_package plat with build_arguments := ffmpegArgs }

/-- The `packages` list of `main`: the audio group followed by ffmpeg. -/
def mainPackages (plat : String) : List Package :=
  audio_group ++ [ffmpegFinal plat]

/-- The list passed to `download_tars`: `build_tools + packages`. -/
def mainDownloadList (plat : String) : List Package :=
  build_tools plat ++ mainPackages plat

/-- Tool availability checks run on Windows before building. -/
def whereEvs (plat : String) : List Ev :=
  if plat = "Windows"
  then ["gcc", "g++", "curl", "gperf", "ld", "pkg-config"].map Ev.whereTool
  else []

/-- One `builder.build` call: an event plus the external effect. -/
def buildList (cfg : Cfg) (forBuilder : Bool) : FS → List Package → List Ev × FS
  | fs, [] => ([], fs)
  | fs, p :: ps =>
    let rest := buildList cfg forBuilder (cfg.buildResult p forBuilder fs) ps
    (Ev.build p forBuilder :: rest.1, rest.2)

/-- The build loop of `main`: tools with `for_builder=True`, then the
codec packages and ffmpeg. -/
def buildPhase (cfg : Cfg) (fs : FS) : List Ev × FS :=
  let t := buildList cfg true fs (build_tools cfg.plat)
  let p := buildList cfg false t.2 (mainPackages cfg.plat)
  (t.1 ++ p.1, p.2)

/-- The eight FFmpeg import-library names relocated on Windows. -/
def libNames : List String :=
  ["avcodec", "avdevice", "avfilter", "avformat", "avutil",
   "postproc", "swresample", "swscale"]

def binLibPath (dest : List String) (n : String) : List String :=
  dest ++ ["bin", n ++ ".lib"]

def libLibPath (dest : List String) (n : String) : List String :=
  dest ++ ["lib", n ++ ".lib"]

/-- The Windows `.lib` relocation loop: each import library found under
`dest/bin` is moved into `dest/lib`. -/
def moveLibs (dest : List String) : FS → List String → List Ev × FS
  | fs, [] => ([], fs)
  | fs, n :: ns =>
    if fs.pathExists (binLibPath dest n) then
      let rest := moveLibs dest (fs.moveInto (binLibPath dest n) (dest ++ ["lib"])) ns
      (Ev.moveFile (binLibPath dest n) (dest ++ ["lib"]) :: rest.1, rest.2)
    else
      moveLibs dest fs ns

def mingwDlls : List String :=
  ["libgcc_s_seh-1.dll", "libiconv-2.dll", "libstdc++-6.dll",
   "libwinpthread-1.dll", "zlib1.dll"]

/-- Copy loop for the MinGW runtime DLLs: each DLL that exists next to
gcc is copied into `dest/bin`. -/
def copyDlls (bindir destBin : List String) : FS → List String → List Ev × FS
  | fs, [] => ([], fs)
  | fs, n :: ns =>
    if fs.pathExists (bindir ++ [n]) then
      let rest := copyDlls bindir destBin (fs.copyInto (bindir ++ [n]) destBin) ns
      (Ev.copyFile (bindir ++ [n]) destBin :: rest.1, rest.2)
    else copyDlls bindir destBin fs ns

/-- Copy the MinGW runtime DLLs that exist next to gcc into `dest/bin`.
When locating gcc fails, the surrounding `try` swallows the error. -/
def mingwCopy (cfg : Cfg) (fs : FS) : List Ev × FS :=
  match cfg.whereGcc with
  | none => ([], fs)
  | some bindir => copyDlls bindir (cfg.destDir ++ ["bin"]) fs mingwDlls

/-- The Windows post-build section: `.lib` relocation then MinGW DLL
copying.  On other platforms it does nothing. -/
def windowsSection (cfg : Cfg) (fs : FS) : List Ev × FS :=
  if cfg.plat = "Windows" then
    let m := moveLibs cfg.destDir fs libNames
    let c := mingwCopy cfg m.2
    (m.1 ++ c.1, c.2)
  else ([], fs)

/-- Model of `glob.glob(dir/*.ext)`: the files directly inside `dir`
whose name ends with `ext`. -/
def FS.globExt (fs : FS) (dir : List String) (ext : String) : List (List String) :=
  fs.files.filterMap fun e =>
    if e.1.dropLast = dir ∧ e.1 ≠ [] ∧ (e.1.getLastD "").endsWith ext = true
    then some e.1 else none

/-- The shared libraries selected for stripping, by platform. -/
def stripTargets (cfg : Cfg) (fs : FS) : List (List String) :=
  if cfg.plat = "Darwin" then fs.globExt (cfg.destDir ++ ["lib"]) ".dylib"
  else if cfg.plat = "Linux" then fs.globExt (cfg.destDir ++ ["lib"]) ".so"
  else if cfg.plat = "Windows" then fs.globExt (cfg.destDir ++ ["bin"]) ".dll"
  else []

/-- The strip step: collect the platform shared libraries and strip
them (with an `otool -L` listing on macOS). -/
def stripPhase (cfg : Cfg) (fs : FS) : List Ev × FS :=
  if (stripTargets cfg fs).isEmpty then ([], fs)
  else if cfg.plat = "Darwin"
  then ([Ev.stripLibs "-S" (stripTargets cfg fs), Ev.otoolList (stripTargets cfg fs)], fs)
  else ([Ev.stripLibs "-s" (stripTargets cfg fs)], fs)

def outputDir (cfg : Cfg) : List String :=
  if cfg.plat = "Linux" ∧ cfg.cibuildwheelEnv then ["/output"] else cfg.cwdOutputDir

def output_tarball (cfg : Cfg) : List String :=
  outputDir cfg ++ ["ffmpeg-" ++ cfg.platformTag ++ ".tar.gz"]

/-- The archive step: `os.makedirs(output_dir, exist_ok=True)`, then
`tar czvf` over those of `bin`, `include`, `lib` that exist under the
destination. -/
def archivePhase (cfg : Cfg) (fs : FS) : List Ev × FS :=
  let fs1 := fs.mkdir (outputDir cfg)
  let dirs := ["bin", "include", "lib"].filter
    (fun d => fs1.pathExists (cfg.destDir ++ [d]))
  ([Ev.makedirs (outputDir cfg), Ev.tarArchive (output_tarball cfg) cfg.destDir dirs], fs1)

/-- Model of the `main` function of the script, named `scriptMain` because Lean reserves `main` (after argument parsing): skip everything when the
output tarball already exists; otherwise create the builder
directories, check tools, install the build systems, download and
verify every tarball, build the tools, the codec packages and ffmpeg,
apply the Windows fixes, strip, and archive.  A download failure
propagates and aborts the run before any build. -/
def scriptMain (cfg : Cfg) (fs : FS) : List Ev × FS × Option PyErr :=
  if fs.pathExists (output_tarball cfg) then ([], fs, none)
  else
    let fs1 := cfg.createDirsResult fs
    let lead := Ev.createDirs :: whereEvs cfg.plat ++
      [Ev.pipInstall ["cmake==3.31.6", "meson", "ninja"]]
    let dl := download_tars cfg fs1 (mainDownloadList cfg.plat)
    match dl.2.2 with
    | some e => (lead ++ dl.1, dl.2.1, some e)
    | none =>
      let b := buildPhase cfg dl.2.1
      let w := windowsSection cfg b.2
      let s := stripPhase cfg w.2
      let a := archivePhase cfg s.2
      (lead ++ dl.1 ++ b.1 ++ w.1 ++ s.1 ++ a.1, a.2, none)

/-! ## Trace observations -/

def Ev.isFetch : Ev → Bool
  | .fetch _ _ => true
  | _ => false

def Ev.isBuild : Ev → Bool
  | .build _ _ => true
  | _ => false

/-- The builder invocations of a trace, in order, with their
`for_builder` flag. -/
def buildsOf (evs : List Ev) : List (Package × Bool) :=
  evs.filterMap fun e =>
    match e with
    | .build p fb => some (p, fb)
    | _ => none

/-- The builder invocations the script is specified to perform: tools
with `for_builder=True`, then the codec packages in `audio_group`
order, then ffmpeg with the configure arguments attached. -/
def expectedBuilds (plat : String) : List (Package × Bool) :=
  (build_tools plat).map (fun t => (t, true)) ++
    (mainPackages plat).map (fun p => (p, false))

/-! ## Concrete run environments for closed instances -/

/-- An environment whose `fetch` always raises `CalledProcessError`
without creating the file, and whose builder effects are identities. -/
def cfgFailFetch : Cfg :=
  { plat := "Linux"
    cibuildwheelEnv := false
    platformTag := "manylinux_x86_64"
    destDir := ["/tmp", "vendor"]
    cwdOutputDir := ["/work", "output"]
    sourceDir := ["/work", "source"]
    fetchResult := fun _ _ fs => (fs, true)
    buildResult := fun _ _ fs => fs
    createDirsResult := fun fs => fs
    whereGcc := none }

/-- A filesystem already holding the output tarball of `cfgFailFetch`. -/
def fsWithOutput : FS :=
  ⟨[(["/work", "output", "ffmpeg-manylinux_x86_64.tar.gz"], [])], []⟩

/-- A filesystem holding an empty gperf tarball under the source
directory of `cfgFailFetch`. -/
def fsWithGperfTarball : FS :=
  ⟨[(["/work", "source", "gperf-3.1.tar.gz"], [])], []⟩

/-- An empty filesystem. -/
def fsEmpty : FS := ⟨[], []⟩

/-- A destination tree on which only `avcodec.lib` exists under `bin`. -/
def fsOneLib : FS :=
  ⟨[(["D", "bin", "avcodec.lib"], [1])], [["D", "bin"]]⟩

/-! ## Chunking lemmas -/

theorem readChunks_flatten (k : Nat) (hk : k ≠ 0) :
    ∀ (fuel : Nat) (l : List Nat), l.length ≤ fuel → (readChunks k fuel l).flatten = l := by
  intro fuel
  induction fuel with
  | zero =>
    intro l hl
    cases l with
    | nil => rfl
    | cons x xs => simp at hl
  | succ n ih =>
    intro l hl
    cases l with
    | nil => rfl
    | cons x xs =>
      have hk1 : 1 ≤ k := Nat.one_le_iff_ne_zero.mpr hk
      have hlen : ((x :: xs).drop k).length ≤ n := by
        simp only [List.length_drop, List.length_cons] at hl ⊢
        omega
      simp only [readChunks, List.flatten_cons, ih _ hlen, List.take_append_drop]

theorem chunksOf_flatten (k : Nat) (hk : k ≠ 0) (l : List Nat) :
    (chunksOf k l).flatten = l :=
  readChunks_flatten k hk l.length l (Nat.le_refl _)

theorem foldl_updateWith (bs : List (List Nat)) :
    ∀ h : Sha256Hash, (bs.foldl Sha256Hash.updateWith h).fed = h.fed ++ bs.flatten := by
  induction bs with
  | nil => intro h; simp
  | cons b bs ih =>
    intro h
    simp only [List.foldl_cons, ih, Sha256Hash.updateWith, List.flatten_cons,
      List.append_assoc]

/-- C8.  `calculate_sha256`, which hashes a file by feeding it to
SHA-256 in successive 4096-byte blocks until an empty read, returns the
same hex digest as computing SHA-256 over the entire contents in one
pass, for every file contents. -/
theorem claim_C8 (contents : List Nat) :
    calculate_sha256 contents = sha256_onepass contents := by
  unfold calculate_sha256 sha256_onepass Sha256Hash.hexdigest
  rw [foldl_updateWith]
  rw [chunksOf_flatten 4096 (by decide) contents]
  rfl

/-- A closed instance of C8 on a concrete three-byte file. -/
theorem claim_C8_witness :
    calculate_sha256 [0x61, 0x62, 0x63] = sha256_onepass [0x61, 0x62, 0x63] :=
  claim_C8 [0x61, 0x62, 0x63]

/-- The NIST test vector for the message "abc", checked against the
model digest pipeline end to end. -/
theorem sha256hex_abc :
    sha256hex [0x61, 0x62, 0x63] =
      "ba7816bf8f01cfea414140de5dae2223b00361a396177a9cb410ff61f20015ad" := by
  decide

/-- The digest of the empty message, checked against the model. -/
theorem sha256hex_empty :
    sha256hex [] =
      "e3b0c44298fc1c149afbf4c8996fb92427ae41e4649b934ca495991b7852b855" := by
  decide

/-! ## Skip-if-exists -/

/-- C2.  If the output tarball `ffmpeg-<platform>.tar.gz` under the
output directory already exists when `main` starts, the run is skipped
entirely: the trace is empty (no download, no builder invocation, no
file move, no strip, no archiving) and the filesystem is unchanged. -/
theorem claim_C2 (cfg : Cfg) (fs : FS)
    (h : fs.pathExists (output_tarball cfg) = true) :
    scriptMain cfg fs = ([], fs, none) := by
  unfold scriptMain
  rw [h]
  rfl

/-- A closed instance of C2: with the output tarball present, the run
is a no-op. -/
theorem claim_C2_witness :
    scriptMain cfgFailFetch fsWithOutput = ([], fsWithOutput, none) :=
  claim_C2 cfgFailFetch fsWithOutput (by decide)

/-! ## Download and verification -/

/-- C3.  For a package whose tarball file exists after the download
step, `download_and_verify_package` raises a `ValueError` exactly when
the SHA-256 hex digest of the tarball contents differs from the
declared `sha256` field, and returns normally when they match. -/
theorem claim_C3 (cfg : Cfg) (fs : FS) (pkg : Package)
    (h : (download_and_verify_package cfg fs pkg).2.1.pathExists (tarballPath cfg pkg) = true) :
    (download_and_verify_package cfg fs pkg).2.2 =
      if pkg.sha256 = calculate_sha256
          ((download_and_verify_package cfg fs pkg).2.1.readD (tarballPath cfg pkg))
      then none
      else some (PyErr.valueErrorShaMismatch pkg.name) := by
  unfold download_and_verify_package at h ⊢
  by_cases h1 : fs.pathExists (tarballPath cfg pkg) <;>
    simp only [h1, if_true, if_false, Bool.false_eq_true, ite_true, ite_false] at h ⊢ <;>
    split at h <;> simp_all <;> split <;> simp_all

/-- A closed instance of C3: an existing tarball with empty contents
fails verification against the declared gperf digest. -/
theorem claim_C3_witness :
    (download_and_verify_package cfgFailFetch fsWithGperfTarball gperf_package).2.1.pathExists
        (tarballPath cfgFailFetch gperf_package) = true ∧
    (download_and_verify_package cfgFailFetch fsWithGperfTarball gperf_package).2.2 =
      if gperf_package.sha256 = calculate_sha256
          ((download_and_verify_package cfgFailFetch fsWithGperfTarball gperf_package).2.1.readD
            (tarballPath cfgFailFetch gperf_package))
      then none
      else some (PyErr.valueErrorShaMismatch gperf_package.name) :=
  ⟨by decide, claim_C3 cfgFailFetch fsWithGperfTarball gperf_package (by decide)⟩

/-- C9.  If the tarball file already exists locally,
`download_and_verify_package` never calls `fetch` (no fetch event in
its trace) and leaves the filesystem unchanged: the existing file is
hashed and verified as-is. -/
theorem claim_C9 (cfg : Cfg) (fs : FS) (pkg : Package)
    (h : fs.pathExists (tarballPath cfg pkg) = true) :
    (∀ e ∈ (download_and_verify_package cfg fs pkg).1, e.isFetch = false) ∧
    (download_and_verify_package cfg fs pkg).2.1 = fs := by
  unfold download_and_verify_package
  simp only [h, if_true, ite_true]
  constructor
  · intro e he
    split at he
    · simp_all
    · split at he <;> simp_all [Ev.isFetch]
  · split
    · simp_all
    · split <;> rfl

/-- A closed instance of C9 on an existing gperf tarball. -/
theorem claim_C9_witness :
    (∀ e ∈ (download_and_verify_package cfgFailFetch fsWithGperfTarball gperf_package).1,
        e.isFetch = false) ∧
    (download_and_verify_package cfgFailFetch fsWithGperfTarball gperf_package).2.1 =
      fsWithGperfTarball :=
  claim_C9 cfgFailFetch fsWithGperfTarball gperf_package (by decide)

/-- C10.  When `fetch` raises `CalledProcessError` and the tarball
still does not exist, `download_and_verify_package` swallows the
subprocess error and raises the `ValueError` for a missing tarball
instead; `download_tars` prints the exception of the failed package and
re-raises it to its caller, so the failure aborts the download phase. -/
theorem claim_C10 (cfg : Cfg) (fs : FS) (pkg : Package)
    (h0 : fs.pathExists (tarballPath cfg pkg) = false)
    (_h1 : (cfg.fetchResult pkg.source_url (tarballPath cfg pkg) fs).2 = true)
    (h2 : (cfg.fetchResult pkg.source_url (tarballPath cfg pkg) fs).1.pathExists
        (tarballPath cfg pkg) = false) :
    (download_and_verify_package cfg fs pkg).2.2 =
        some (PyErr.valueErrorTarballMissing (tarballPath cfg pkg)) ∧
    ∀ ps : List Package,
      (download_tars cfg fs (pkg :: ps)).2.2 =
          some (PyErr.valueErrorTarballMissing (tarballPath cfg pkg)) ∧
      Ev.printException pkg.name ∈ (download_tars cfg fs (pkg :: ps)).1 := by
  have hdl : (download_and_verify_package cfg fs pkg).2.2 =
      some (PyErr.valueErrorTarballMissing (tarballPath cfg pkg)) := by
    unfold download_and_verify_package
    simp [h0, h2]
  refine ⟨hdl, fun ps => ?_⟩
  unfold download_tars runAllDownloads
  simp only [hdl]
  simp

/-- A closed instance of C10: with an always-failing fetch and no local
tarball, the gperf download raises the missing-tarball `ValueError` and
`download_tars` re-raises it. -/
theorem claim_C10_witness :
    (download_and_verify_package cfgFailFetch fsEmpty gperf_package).2.2 =
        some (PyErr.valueErrorTarballMissing (tarballPath cfgFailFetch gperf_package)) ∧
    ∀ ps : List Package,
      (download_tars cfgFailFetch fsEmpty (gperf_package :: ps)).2.2 =
          some (PyErr.valueErrorTarballMissing (tarballPath cfgFailFetch gperf_package)) ∧
      Ev.printException gperf_package.name ∈
        (download_tars cfgFailFetch fsEmpty (gperf_package :: ps)).1 :=
  claim_C10 cfgFailFetch fsEmpty gperf_package (by decide) (by decide) (by decide)

/-! ## Package coverage -/

/-- C1 (amended).  For every name in the list opus, lame, ogg, vorbis,
speex, a package with that name, a non-empty source URL and a non-empty
SHA-256 digest is in `audio_group`, hence among the packages passed to
`download_tars` (`mainDownloadList`) and among the packages built by
the build loop (`mainPackages`), on every platform.  The names twolame,
opencore-amr and fdk-aac of the original claim do not occur (see the
counterexample). -/
theorem claim_C1 (plat : String) (n : String)
    (h : n ∈ ["opus", "lame", "ogg", "vorbis", "speex"]) :
    ∃ p : Package, p ∈ audio_group ∧ p.name = n ∧ p.source_url ≠ "" ∧ p.sha256 ≠ "" ∧
      p ∈ mainDownloadList plat ∧ p ∈ mainPackages plat := by
  have hmem : ∀ p ∈ audio_group, p ∈ mainDownloadList plat ∧ p ∈ mainPackages plat := by
    intro p hp
    have h2 : p ∈ mainPackages plat := by
      unfold mainPackages
      exact List.mem_append_left _ hp
    exact ⟨List.mem_append_right _ h2, h2⟩
  fin_cases h
  · exact ⟨opus_package, by decide, rfl, by decide, by decide,
      hmem opus_package (by decide)⟩
  · exact ⟨lame_package, by decide, rfl, by decide, by decide,
      hmem lame_package (by decide)⟩
  · exact ⟨ogg_package, by decide, rfl, by decide, by decide,
      hmem ogg_package (by decide)⟩
  · exact ⟨vorbis_package, by decide, rfl, by decide, by decide,
      hmem vorbis_package (by decide)⟩
  · exact ⟨speex_package, by decide, rfl, by decide, by decide,
      hmem speex_package (by decide)⟩

/-- A closed instance of C1 for the name opus on Linux. -/
theorem claim_C1_witness :
    ∃ p : Package, p ∈ audio_group ∧ p.name = "opus" ∧ p.source_url ≠ "" ∧ p.sha256 ≠ "" ∧
      p ∈ mainDownloadList "Linux" ∧ p ∈ mainPackages "Linux" :=
  claim_C1 "Linux" "opus" (by decide)

/-- Refutation of C1 as stated: no package named twolame, opencore-amr
or fdk-aac is among the packages passed to `download_tars` and built
(shown on the Linux download list; the codec part of the list does not
depend on the platform). -/
theorem claim_C1_counterexample :
    (¬ ∃ p ∈ mainDownloadList "Linux", p.name = "twolame") ∧
    (¬ ∃ p ∈ mainDownloadList "Linux", p.name = "opencore-amr") ∧
    (¬ ∃ p ∈ mainDownloadList "Linux", p.name = "fdk-aac") := by
  decide

/-! ## Trace lemmas -/

theorem buildList_evs (cfg : Cfg) (fb : Bool) :
    ∀ (fs : FS) (ps : List Package), (buildList cfg fb fs ps).1 = ps.map (Ev.build · fb) := by
  intro fs ps
  induction ps generalizing fs with
  | nil => rfl
  | cons p ps ih => simp [buildList, ih]

theorem buildPhase_evs (cfg : Cfg) (fs : FS) :
    (buildPhase cfg fs).1 =
      (build_tools cfg.plat).map (Ev.build · true) ++
        (mainPackages cfg.plat).map (Ev.build · false) := by
  unfold buildPhase
  simp [buildList_evs]

theorem dl_evs_shape (cfg : Cfg) (fs : FS) (pkg : Package) :
    ∀ e ∈ (download_and_verify_package cfg fs pkg).1,
      e = Ev.fetch pkg.source_url (tarballPath cfg pkg) ∨
        e = Ev.printHashesMatch pkg.name := by
  intro e he
  unfold download_and_verify_package at he
  by_cases h1 : fs.pathExists (tarballPath cfg pkg)
  · simp only [h1, if_true, ite_true] at he
    split at he
    · simp at he
    · split at he
      · simp only [List.nil_append, List.mem_singleton] at he
        exact Or.inr he
      · simp at he
  · simp only [h1, if_false, ite_false, Bool.false_eq_true] at he
    split at he
    · simp only [List.mem_singleton] at he
      exact Or.inl he
    · split at he
      · simp only [List.mem_append, List.mem_singleton] at he
        rcases he with h | h
        · exact Or.inl (by simpa using h)
        · exact Or.inr h
      · simp only [List.mem_singleton] at he
        exact Or.inl he

theorem dl_noBuild (cfg : Cfg) (fs : FS) (pkg : Package) :
    ∀ e ∈ (download_and_verify_package cfg fs pkg).1, e.isBuild = false := by
  intro e he
  rcases dl_evs_shape cfg fs pkg e he with rfl | rfl <;> rfl

theorem runAll_noBuild (cfg : Cfg) :
    ∀ (ps : List Package) (fs : FS), ∀ e ∈ (runAllDownloads cfg fs ps).1, e.isBuild = false := by
  intro ps
  induction ps with
  | nil => intro fs e he; simp [runAllDownloads] at he
  | cons p ps ih =>
    intro fs e he
    simp only [runAllDownloads, List.mem_append] at he
    rcases he with h | h
    · exact dl_noBuild cfg fs p e h
    · exact ih _ e h

theorem download_tars_noBuild (cfg : Cfg) (fs : FS) (ps : List Package) :
    ∀ e ∈ (download_tars cfg fs ps).1, e.isBuild = false := by
  intro e he
  simp only [download_tars] at he
  split at he
  · exact runAll_noBuild cfg ps fs e he
  · simp only [List.mem_append, List.mem_singleton] at he
    rcases he with h | h
    · exact runAll_noBuild cfg ps fs e h
    · subst h; rfl

theorem whereEvs_shape (plat : String) :
    ∀ e ∈ whereEvs plat, ∃ t, e = Ev.whereTool t := by
  intro e he
  unfold whereEvs at he
  split at he
  · simp only [List.mem_map] at he
    obtain ⟨t, _, rfl⟩ := he
    exact ⟨t, rfl⟩
  · simp at he

theorem moveLibs_evs_moveFile (dest : List String) :
    ∀ (ns : List String) (fs : FS), ∀ e ∈ (moveLibs dest fs ns).1,
      ∃ s d, e = Ev.moveFile s d := by
  intro ns
  induction ns with
  | nil => intro fs e he; simp [moveLibs] at he
  | cons n ns ih =>
    intro fs e he
    unfold moveLibs at he
    split at he
    · simp only [List.mem_cons] at he
      rcases he with rfl | h
      · exact ⟨_, _, rfl⟩
      · exact ih _ e h
    · exact ih _ e he

theorem copyDlls_evs_copyFile (bindir destBin : List String) :
    ∀ (ns : List String) (fs : FS), ∀ e ∈ (copyDlls bindir destBin fs ns).1,
      ∃ s d, e = Ev.copyFile s d := by
  intro ns
  induction ns with
  | nil => intro fs e he; simp [copyDlls] at he
  | cons n ns ih =>
    intro fs e he
    unfold copyDlls at he
    split at he
    · simp only [List.mem_cons] at he
      rcases he with rfl | h
      · exact ⟨_, _, rfl⟩
      · exact ih _ e h
    · exact ih _ e he

theorem windowsSection_noFetch (cfg : Cfg) (fs : FS) :
    ∀ e ∈ (windowsSection cfg fs).1, e.isFetch = false := by
  intro e he
  unfold windowsSection at he
  split at he
  · simp only [List.mem_append] at he
    rcases he with h | h
    · obtain ⟨s, d, rfl⟩ := moveLibs_evs_moveFile cfg.destDir libNames fs e h
      rfl
    · unfold mingwCopy at h
      split at h
      · simp at h
      · obtain ⟨s, d, rfl⟩ := copyDlls_evs_copyFile _ _ mingwDlls _ e h
        rfl
  · simp at he

theorem stripPhase_noFetch (cfg : Cfg) (fs : FS) :
    ∀ e ∈ (stripPhase cfg fs).1, e.isFetch = false := by
  intro e he
  unfold stripPhase at he
  split at he
  · simp at he
  · split at he
    · simp only [List.mem_cons, List.not_mem_nil, or_false] at he
      rcases he with rfl | rfl <;> rfl
    · simp only [List.mem_singleton] at he
      subst he; rfl

theorem archivePhase_noFetch (cfg : Cfg) (fs : FS) :
    ∀ e ∈ (archivePhase cfg fs).1, e.isFetch = false := by
  intro e he
  unfold archivePhase at he
  simp only [List.mem_cons, List.mem_singleton] at he
  rcases he with rfl | rfl | h
  · rfl
  · rfl
  · simp at h

theorem buildPhase_noFetch (cfg : Cfg) (fs : FS) :
    ∀ e ∈ (buildPhase cfg fs).1, e.isFetch = false := by
  intro e he
  rw [buildPhase_evs] at he
  simp only [List.mem_append, List.mem_map] at he
  rcases he with ⟨p, _, rfl⟩ | ⟨p, _, rfl⟩ <;> rfl

theorem windowsSection_noBuild (cfg : Cfg) (fs : FS) :
    ∀ e ∈ (windowsSection cfg fs).1, e.isBuild = false := by
  intro e he
  unfold windowsSection at he
  split at he
  · simp only [List.mem_append] at he
    rcases he with h | h
    · obtain ⟨s, d, rfl⟩ := moveLibs_evs_moveFile cfg.destDir libNames fs e h
      rfl
    · unfold mingwCopy at h
      split at h
      · simp at h
      · obtain ⟨s, d, rfl⟩ := copyDlls_evs_copyFile _ _ mingwDlls _ e h
        rfl
  · simp at he

theorem stripPhase_noBuild (cfg : Cfg) (fs : FS) :
    ∀ e ∈ (stripPhase cfg fs).1, e.isBuild = false := by
  intro e he
  unfold stripPhase at he
  split at he
  · simp at he
  · split at he
    · simp only [List.mem_cons, List.not_mem_nil, or_false] at he
      rcases he with rfl | rfl <;> rfl
    · simp only [List.mem_singleton] at he
      subst he; rfl

theorem archivePhase_noBuild (cfg : Cfg) (fs : FS) :
    ∀ e ∈ (archivePhase cfg fs).1, e.isBuild = false := by
  intro e he
  unfold archivePhase at he
  simp only [List.mem_cons, List.mem_singleton] at he
  rcases he with rfl | rfl | h
  · rfl
  · rfl
  · simp at h

theorem buildsOf_append (a b : List Ev) :
    buildsOf (a ++ b) = buildsOf a ++ buildsOf b := by
  unfold buildsOf
  exact List.filterMap_append a b _

theorem buildsOf_nil_of_noBuild (l : List Ev) (h : ∀ e ∈ l, e.isBuild = false) :
    buildsOf l = [] := by
  induction l with
  | nil => rfl
  | cons e l ih =>
    have he := h e (List.mem_cons_self e l)
    have ht := ih fun x hx => h x (List.mem_cons_of_mem e hx)
    cases e <;> simp_all [buildsOf, List.filterMap_cons, Ev.isBuild]

theorem buildsOf_map_build (ps : List Package) (fb : Bool) :
    buildsOf (ps.map (Ev.build · fb)) = ps.map (fun p => (p, fb)) := by
  induction ps with
  | nil => rfl
  | cons p ps ih =>
    simp only [List.map_cons, buildsOf, List.filterMap_cons] at *
    rw [ih]

/-! ## Ordering of downloads and builds -/

/-- C4.  Every tarball download-and-verify happens before any build: in
every run the trace splits into a first part containing no builder
invocation (argument parsing, directory creation, tool checks, build
system installation, and the whole verified download phase) followed by
a part containing no fetch, and when the download phase raised, the
whole trace contains no builder invocation at all. -/
theorem claim_C4 (cfg : Cfg) (fs : FS) :
    (∃ t1 t2, (scriptMain cfg fs).1 = t1 ++ t2 ∧
        (∀ e ∈ t1, e.isBuild = false) ∧ (∀ e ∈ t2, e.isFetch = false)) ∧
    ((scriptMain cfg fs).2.2.isSome = true →
      ∀ e ∈ (scriptMain cfg fs).1, e.isBuild = false) := by
  have hlead : ∀ e ∈ (Ev.createDirs :: whereEvs cfg.plat ++
      [Ev.pipInstall ["cmake==3.31.6", "meson", "ninja"]]),
      e.isBuild = false ∧ e.isFetch = false := by
    intro e he
    simp only [List.mem_cons, List.mem_append, List.mem_singleton,
      List.not_mem_nil, or_false] at he
    rcases he with (rfl | he) | rfl
    · exact ⟨rfl, rfl⟩
    · obtain ⟨t, rfl⟩ := whereEvs_shape cfg.plat e he
      exact ⟨rfl, rfl⟩
    · exact ⟨rfl, rfl⟩
  unfold scriptMain
  by_cases h0 : fs.pathExists (output_tarball cfg)
  · simp only [h0, if_true, ite_true]
    exact ⟨⟨[], [], by simp, by simp, by simp⟩, by simp⟩
  · simp only [h0, if_false, ite_false, Bool.false_eq_true]
    have hfront : ∀ e ∈ (Ev.createDirs :: whereEvs cfg.plat ++
        [Ev.pipInstall ["cmake==3.31.6", "meson", "ninja"]]) ++
        (download_tars cfg (cfg.createDirsResult fs) (mainDownloadList cfg.plat)).1,
        e.isBuild = false := by
      intro e he
      rcases List.mem_append.mp he with h | h
      · exact (hlead e h).1
      · exact download_tars_noBuild cfg _ _ e h
    cases hdl : (download_tars cfg (cfg.createDirsResult fs) (mainDownloadList cfg.plat)).2.2 with
    | some err =>
      simp only [hdl]
      refine ⟨⟨_, [], (List.append_nil _).symm, hfront, by simp⟩, fun _ => hfront⟩
    | none =>
      simp only [hdl]
      set dlt := download_tars cfg (cfg.createDirsResult fs) (mainDownloadList cfg.plat) with hdlt
      set b := buildPhase cfg dlt.2.1 with hb
      set w := windowsSection cfg b.2 with hw
      set st := stripPhase cfg w.2 with hst
      set a := archivePhase cfg st.2 with ha
      refine ⟨⟨Ev.createDirs :: whereEvs cfg.plat ++
          [Ev.pipInstall ["cmake==3.31.6", "meson", "ninja"]] ++ dlt.1,
          b.1 ++ (w.1 ++ (st.1 ++ a.1)), ?_, hfront, ?_⟩, by simp⟩
      · simp only [List.append_assoc]
      · intro e he
        simp only [List.mem_append] at he
        rcases he with h | h | h | h
        · rw [hb] at h
          exact buildPhase_noFetch cfg _ e h
        · rw [hw] at h
          exact windowsSection_noFetch cfg _ e h
        · rw [hst] at h
          exact stripPhase_noFetch cfg _ e h
        · rw [ha] at h
          exact archivePhase_noFetch cfg _ e h

/-- A closed instance of C4, on a run whose downloads all fail. -/
theorem claim_C4_witness :
    (∃ t1 t2, (scriptMain cfgFailFetch fsEmpty).1 = t1 ++ t2 ∧
        (∀ e ∈ t1, e.isBuild = false) ∧ (∀ e ∈ t2, e.isFetch = false)) ∧
    ((scriptMain cfgFailFetch fsEmpty).2.2.isSome = true →
      ∀ e ∈ (scriptMain cfgFailFetch fsEmpty).1, e.isBuild = false) :=
  claim_C4 cfgFailFetch fsEmpty

/-- C5.  Whenever the run reaches the build phase, the builder is
invoked sequentially in exactly this order: each build-time tool with
`for_builder=True`, then each codec library in `audio_group` order,
then the ffmpeg package carrying the assigned configure arguments; when
the run is skipped or the download phase raised, no builder invocation
occurs. -/
theorem claim_C5 (cfg : Cfg) (fs : FS) :
    buildsOf (scriptMain cfg fs).1 =
      if fs.pathExists (output_tarball cfg) || (scriptMain cfg fs).2.2.isSome
      then [] else expectedBuilds cfg.plat := by
  have hlead : buildsOf (Ev.createDirs :: whereEvs cfg.plat ++
      [Ev.pipInstall ["cmake==3.31.6", "meson", "ninja"]]) = [] := by
    apply buildsOf_nil_of_noBuild
    intro e he
    simp only [List.mem_cons, List.mem_append, List.mem_singleton,
      List.not_mem_nil, or_false] at he
    rcases he with (rfl | he) | rfl
    · rfl
    · obtain ⟨t, rfl⟩ := whereEvs_shape cfg.plat e he
      rfl
    · rfl
  unfold scriptMain
  by_cases h0 : fs.pathExists (output_tarball cfg)
  · simp [h0, buildsOf]
  · simp only [h0, if_false, ite_false, Bool.false_eq_true, Bool.false_or]
    cases hdl : (download_tars cfg (cfg.createDirsResult fs) (mainDownloadList cfg.plat)).2.2 with
    | some err =>
      simp only [hdl, Option.isSome_some, if_true, ite_true]
      rw [buildsOf_append, hlead]
      rw [buildsOf_nil_of_noBuild _ (download_tars_noBuild cfg _ _)]
      rfl
    | none =>
      simp only [hdl, Option.isSome_none, if_false, ite_false, Bool.false_eq_true]
      set dlt := download_tars cfg (cfg.createDirsResult fs) (mainDownloadList cfg.plat) with hdlt
      set b := buildPhase cfg dlt.2.1 with hb
      set w := windowsSection cfg b.2 with hw
      set st := stripPhase cfg w.2 with hst
      set a := archivePhase cfg st.2 with ha
      rw [buildsOf_append, buildsOf_append, buildsOf_append, buildsOf_append,
        buildsOf_append, hlead]
      rw [buildsOf_nil_of_noBuild dlt.1 (by rw [hdlt]; exact download_tars_noBuild cfg _ _)]
      rw [buildsOf_nil_of_noBuild w.1 (by rw [hw]; exact windowsSection_noBuild cfg _)]
      rw [buildsOf_nil_of_noBuild st.1 (by rw [hst]; exact stripPhase_noBuild cfg _)]
      rw [buildsOf_nil_of_noBuild a.1 (by rw [ha]; exact archivePhase_noBuild cfg _)]
      have hbuilds : buildsOf b.1 = expectedBuilds cfg.plat := by
        rw [hb, buildPhase_evs, buildsOf_append, buildsOf_map_build, buildsOf_map_build]
        rfl
      rw [hbuilds]
      simp

/-- A closed instance of C5, on a run whose downloads all fail, so no
builder invocation occurs. -/
theorem claim_C5_witness :
    buildsOf (scriptMain cfgFailFetch fsEmpty).1 =
      if fsEmpty.pathExists (output_tarball cfgFailFetch) ||
          (scriptMain cfgFailFetch fsEmpty).2.2.isSome
      then [] else expectedBuilds cfgFailFetch.plat :=
  claim_C5 cfgFailFetch fsEmpty

/-! ## Filesystem lemmas -/

theorem findFile_removeEntry (es : List (List String × List Nat)) (p q : List String) :
    findFile (removeEntry es p) q = if q = p then none else findFile es q := by
  induction es with
  | nil => simp [removeEntry, findFile]
  | cons e es ih =>
    by_cases h1 : e.1 = p <;> by_cases h2 : q = p <;> by_cases h3 : e.1 = q <;>
      simp_all [removeEntry, findFile]

theorem FS.read_write (fs : FS) (p q : List String) (c : List Nat) :
    (fs.write p c).read q = if q = p then some c else fs.read q := by
  show findFile ((p, c) :: removeEntry fs.files p) q = _
  simp only [findFile]
  rcases eq_or_ne q p with h | h
  · subst h; simp
  · rw [if_neg fun hh => h hh.symm, findFile_removeEntry, if_neg h, if_neg h]
    rfl

theorem FS.read_removeFile (fs : FS) (p q : List String) :
    (fs.removeFile p).read q = if q = p then none else fs.read q :=
  findFile_removeEntry fs.files p q

theorem FS.write_dirs (fs : FS) (p : List String) (c : List Nat) :
    (fs.write p c).dirs = fs.dirs := rfl

theorem FS.moveInto_dirs (fs : FS) (src dstDir : List String) :
    (fs.moveInto src dstDir).dirs = fs.dirs := by
  unfold FS.moveInto
  split <;> rfl

theorem FS.read_moveInto_other (fs : FS) (src dstDir q : List String)
    (h1 : q ≠ src) (h2 : q ≠ dstDir ++ [src.getLastD ""]) :
    (fs.moveInto src dstDir).read q = fs.read q := by
  unfold FS.moveInto
  split
  · rw [FS.read_write, if_neg h2, FS.read_removeFile, if_neg h1]
  · rfl

theorem FS.pathExists_moveInto_other (fs : FS) (src dstDir q : List String)
    (h1 : q ≠ src) (h2 : q ≠ dstDir ++ [src.getLastD ""]) :
    (fs.moveInto src dstDir).pathExists q = fs.pathExists q := by
  unfold FS.pathExists
  rw [FS.read_moveInto_other fs src dstDir q h1 h2, FS.moveInto_dirs]

theorem FS.read_moveInto_target (fs : FS) (src dstDir : List String) (c : List Nat)
    (h : fs.read src = some c) :
    (fs.moveInto src dstDir).read (dstDir ++ [src.getLastD ""]) = some c := by
  unfold FS.moveInto
  rw [h]
  rw [FS.read_write, if_pos rfl]

theorem FS.read_moveInto_src (fs : FS) (src dstDir : List String) (c : List Nat)
    (h : fs.read src = some c) (hne : src ≠ dstDir ++ [src.getLastD ""]) :
    (fs.moveInto src dstDir).read src = none := by
  unfold FS.moveInto
  rw [h]
  rw [FS.read_write, if_neg hne, FS.read_removeFile, if_pos rfl]

/-! ## Path lemmas -/

theorem getLastD_append_pair (l : List String) (a b d : String) :
    (l ++ [a, b]).getLastD d = b := by
  rw [show l ++ [a, b] = (l ++ [a]) ++ [b] by simp]
  exact List.getLastD_concat _ _ _

theorem moveTarget_eq (dest : List String) (n : String) :
    (dest ++ ["lib"]) ++ [(binLibPath dest n).getLastD ""] = libLibPath dest n := by
  unfold binLibPath libLibPath
  rw [getLastD_append_pair]
  simp

theorem binLibPath_ne_libLibPath (dest : List String) (n m : String) :
    binLibPath dest n ≠ libLibPath dest m := by
  unfold binLibPath libLibPath
  intro h
  have h2 := List.append_cancel_left h
  simp only [List.cons.injEq] at h2
  exact absurd h2.1 (by decide)

theorem binLibPath_inj (dest : List String) {n m : String}
    (h : binLibPath dest n = binLibPath dest m) : n ++ ".lib" = m ++ ".lib" := by
  unfold binLibPath at h
  have h2 := List.append_cancel_left h
  simp only [List.cons.injEq] at h2
  exact h2.2.1

theorem libLibPath_inj (dest : List String) {n m : String}
    (h : libLibPath dest n = libLibPath dest m) : n ++ ".lib" = m ++ ".lib" := by
  unfold libLibPath at h
  have h2 := List.append_cancel_left h
  simp only [List.cons.injEq] at h2
  exact h2.2.1

theorem binLibPath_ne_of_name (dest : List String) {f n : String}
    (h : f ≠ n ++ ".lib") : dest ++ ["bin", f] ≠ binLibPath dest n := by
  unfold binLibPath
  intro hh
  have h2 := List.append_cancel_left hh
  simp only [List.cons.injEq] at h2
  exact h (by tauto)

theorem binFile_ne_libLibPath (dest : List String) (f n : String) :
    dest ++ ["bin", f] ≠ libLibPath dest n := by
  unfold libLibPath
  intro hh
  have h2 := List.append_cancel_left hh
  simp only [List.cons.injEq] at h2
  exact absurd h2.1 (by decide)

/-! ## Relocation lemmas -/

theorem moveLibs_evs (dest : List String) :
    ∀ (ns : List String) (fs : FS),
      (ns.map (fun n => n ++ ".lib")).Nodup →
      (moveLibs dest fs ns).1 =
        (ns.filter (fun n => fs.pathExists (binLibPath dest n))).map
          (fun n => Ev.moveFile (binLibPath dest n) (dest ++ ["lib"])) := by
  intro ns
  induction ns with
  | nil => intro fs _; rfl
  | cons n ns ih =>
    intro fs hnd
    simp only [List.map_cons, List.nodup_cons, List.mem_map] at hnd
    have hnd2 : (ns.map (fun m => m ++ ".lib")).Nodup := hnd.2
    have hne : ∀ m ∈ ns, ¬m ++ ".lib" = n ++ ".lib" := by
      intro m hm heq
      exact hnd.1 ⟨m, hm, heq⟩
    unfold moveLibs
    by_cases h : fs.pathExists (binLibPath dest n) = true
    · simp only [h, if_true, ite_true]
      simp only [List.filter_cons, h, if_true, ite_true, List.map_cons]
      rw [ih _ hnd2]
      have hpres : ∀ m ∈ ns,
          (fs.moveInto (binLibPath dest n) (dest ++ ["lib"])).pathExists (binLibPath dest m)
            = fs.pathExists (binLibPath dest m) := by
        intro m hm
        apply FS.pathExists_moveInto_other
        · intro heq
          exact hne m hm (binLibPath_inj dest heq)
        · rw [moveTarget_eq]
          exact binLibPath_ne_libLibPath dest m n
      rw [List.filter_congr fun m hm => hpres m hm]
    · simp only [h, if_false, ite_false]
      simp only [List.filter_cons, h, Bool.false_eq_true, if_false, ite_false]
      exact ih _ hnd2

theorem moveLibs_read_other (dest : List String) :
    ∀ (ns : List String) (fs : FS) (q : List String),
      (∀ n ∈ ns, q ≠ binLibPath dest n ∧ q ≠ libLibPath dest n) →
      (moveLibs dest fs ns).2.read q = fs.read q := by
  intro ns
  induction ns with
  | nil => intro fs q _; rfl
  | cons n ns ih =>
    intro fs q hq
    have hq1 := hq n (List.mem_cons_self n ns)
    have hq2 : ∀ m ∈ ns, q ≠ binLibPath dest m ∧ q ≠ libLibPath dest m :=
      fun m hm => hq m (List.mem_cons_of_mem n hm)
    unfold moveLibs
    by_cases h : fs.pathExists (binLibPath dest n) = true
    · simp only [h, if_true, ite_true]
      rw [ih _ _ hq2]
      apply FS.read_moveInto_other
      · exact hq1.1
      · rw [moveTarget_eq]
        exact hq1.2
    · simp only [h, if_false, ite_false]
      exact ih _ _ hq2

theorem moveLibs_relocates (dest : List String) :
    ∀ (ns : List String) (fs : FS) (n : String) (c : List Nat),
      (ns.map (fun m => m ++ ".lib")).Nodup →
      n ∈ ns →
      fs.read (binLibPath dest n) = some c →
      (moveLibs dest fs ns).2.read (libLibPath dest n) = some c ∧
      (moveLibs dest fs ns).2.read (binLibPath dest n) = none := by
  intro ns
  induction ns with
  | nil => intro fs n c _ h _; simp at h
  | cons m ns ih =>
    intro fs n c hnd hmem hread
    simp only [List.map_cons, List.nodup_cons, List.mem_map] at hnd
    have hnd2 : (ns.map (fun k => k ++ ".lib")).Nodup := hnd.2
    rcases List.mem_cons.mp hmem with rfl | hmem2
    · have hex : fs.pathExists (binLibPath dest n) = true := by
        unfold FS.pathExists
        rw [hread]
        rfl
      unfold moveLibs
      simp only [hex, if_true, ite_true]
      have huntouched : ∀ k ∈ ns,
          (libLibPath dest n ≠ binLibPath dest k ∧ libLibPath dest n ≠ libLibPath dest k) := by
        intro k hk
        refine ⟨fun heq => binLibPath_ne_libLibPath dest k n heq.symm, fun heq => ?_⟩
        exact hnd.1 ⟨k, hk, (libLibPath_inj dest heq.symm)⟩
      have hbinuntouched : ∀ k ∈ ns,
          (binLibPath dest n ≠ binLibPath dest k ∧ binLibPath dest n ≠ libLibPath dest k) := by
        intro k hk
        refine ⟨fun heq => ?_, binLibPath_ne_libLibPath dest n k⟩
        exact hnd.1 ⟨k, hk, (binLibPath_inj dest heq.symm)⟩
      constructor
      · rw [moveLibs_read_other dest ns _ _ huntouched]
        have := FS.read_moveInto_target fs (binLibPath dest n) (dest ++ ["lib"]) c hread
        rw [moveTarget_eq] at this
        exact this
      · rw [moveLibs_read_other dest ns _ _ hbinuntouched]
        apply FS.read_moveInto_src fs _ _ c hread
        rw [moveTarget_eq]
        exact fun heq => binLibPath_ne_libLibPath dest n n heq
    · have hne : n ++ ".lib" ≠ m ++ ".lib" := by
        intro heq
        exact hnd.1 ⟨n, hmem2, heq⟩
      unfold moveLibs
      by_cases h : fs.pathExists (binLibPath dest m) = true
      · simp only [h, if_true, ite_true]
        apply ih _ n c hnd2 hmem2
        rw [FS.read_moveInto_other]
        · exact hread
        · exact fun heq => hne (binLibPath_inj dest heq)
        · rw [moveTarget_eq]
          exact binLibPath_ne_libLibPath dest n m
      · simp only [h, if_false, ite_false]
        exact ih _ n c hnd2 hmem2 hread

/-! ## Archiving and Windows relocation -/

/-- C6.  The archive step issues exactly one tar invocation, rooted at
the destination directory, over exactly those of the subdirectories
bin, include, lib that exist under the destination at archive time
(after the output directory is created), in that order, and over no
other directory. -/
theorem claim_C6 (cfg : Cfg) (fs : FS) :
    ∃ ds, (archivePhase cfg fs).1 =
        [Ev.makedirs (outputDir cfg), Ev.tarArchive (output_tarball cfg) cfg.destDir ds] ∧
      List.Sublist ds ["bin", "include", "lib"] ∧
      ∀ d, d ∈ ds ↔ d ∈ ["bin", "include", "lib"] ∧
        (fs.mkdir (outputDir cfg)).pathExists (cfg.destDir ++ [d]) = true := by
  refine ⟨_, rfl, List.filter_sublist _, fun d => ?_⟩
  simp [List.mem_filter]

/-- A closed instance of C6 on a destination holding only `bin`. -/
theorem claim_C6_witness :
    ∃ ds, (archivePhase cfgFailFetch fsOneLib).1 =
        [Ev.makedirs (outputDir cfgFailFetch),
          Ev.tarArchive (output_tarball cfgFailFetch) cfgFailFetch.destDir ds] ∧
      List.Sublist ds ["bin", "include", "lib"] ∧
      ∀ d, d ∈ ds ↔ d ∈ ["bin", "include", "lib"] ∧
        (fsOneLib.mkdir (outputDir cfgFailFetch)).pathExists
          (cfgFailFetch.destDir ++ [d]) = true :=
  claim_C6 cfgFailFetch fsOneLib

/-- C7.  The Windows post-build relocation moves exactly the eight
interface libraries of `libNames` from `dest/bin` to `dest/lib`: the move
events are exactly one per library present under `dest/bin`, a present
library file ends up readable under `dest/lib` and gone from
`dest/bin`, any other file under `dest/bin` is untouched, and on a
non-Windows platform the whole section does nothing. -/
theorem claim_C7 (dest : List String) (fs : FS) :
    ((moveLibs dest fs libNames).1 =
        (libNames.filter (fun n => fs.pathExists (binLibPath dest n))).map
          (fun n => Ev.moveFile (binLibPath dest n) (dest ++ ["lib"]))) ∧
    (∀ n, n ∈ libNames → ∀ c, fs.read (binLibPath dest n) = some c →
        (moveLibs dest fs libNames).2.read (libLibPath dest n) = some c ∧
        (moveLibs dest fs libNames).2.read (binLibPath dest n) = none) ∧
    (∀ f : String, (∀ n ∈ libNames, f ≠ n ++ ".lib") →
        (moveLibs dest fs libNames).2.read (dest ++ ["bin", f]) =
          fs.read (dest ++ ["bin", f])) ∧
    (∀ (cfg : Cfg) (fs2 : FS), cfg.plat ≠ "Windows" → windowsSection cfg fs2 = ([], fs2)) := by
  have hnd : (libNames.map (fun n => n ++ ".lib")).Nodup := by decide
  refine ⟨moveLibs_evs dest libNames fs hnd, ?_, ?_, ?_⟩
  · intro n hn c hread
    exact moveLibs_relocates dest libNames fs n c hnd hn hread
  · intro f hf
    apply moveLibs_read_other
    intro n hn
    exact ⟨binLibPath_ne_of_name dest (hf n hn), binFile_ne_libLibPath dest f n⟩
  · intro cfg fs2 hplat
    unfold windowsSection
    rw [if_neg hplat]

/-- A closed instance of C7: on a tree holding only `avcodec.lib`
under `bin`, the relocation puts it under `lib` and removes it from
`bin`. -/
theorem claim_C7_witness :
    (moveLibs ["D"] fsOneLib libNames).2.read (libLibPath ["D"] "avcodec") = some [1] ∧
    (moveLibs ["D"] fsOneLib libNames).2.read (binLibPath ["D"] "avcodec") = none :=
  (claim_C7 ["D"] fsOneLib).2.1 "avcodec" (by decide) [1] (by decide)
